import Mathlib

/-!
Verification of the CNIC (Pakistani national identity card) KYC extraction
pipeline: a shallow embedding of the core logic of
`detector/services/ocr_service.py` and `detector/views.py`.

The opaque external capabilities (face detector, YOLO object detector, OCR
reader, QR decoder) are modelled by passing their outputs in as parameters:
the embedding covers everything the repository itself computes from those
outputs (ROI geometry, token filtering, date normalization, identifier
extraction and reconciliation, merging, and the request pipeline's
control flow).
-/

namespace CnicKyc

/-- Models Python `s.replace(c, "")` for a single-character pattern `c`
(both uses in the source, `replace("-", "")` and `replace(".", "")`, remove
every occurrence of one character). -/
def removeChar (c : Char) (s : String) : String :=
  String.mk (s.data.filter (fun a => a ≠ c))

/-- Split a character list on a separator character; models the grouping
of a string into the maximal separator-free chunks (as Python
`str.split(sep)` does for a one-character separator). -/
def splitCh (c : Char) : List Char → List (List Char)
  | [] => [[]]
  | a :: t =>
    match splitCh c t with
    | [] => [[]]
    | g :: gs => if a = c then [] :: g :: gs else (a :: g) :: gs

/-- Numeric value of a list of ASCII decimal digit characters. -/
def natOfDigits (l : List Char) : Nat :=
  l.foldl (fun acc c => acc * 10 + (c.toNat - 48)) 0

/-- The day field of `strptime`'s `%d` directive: one or two decimal
digits whose value lies in 1..31. -/
def parseDayPart (l : List Char) : Option Nat :=
  if l ≠ [] ∧ l.length ≤ 2 ∧ l.all Char.isDigit ∧
      1 ≤ natOfDigits l ∧ natOfDigits l ≤ 31 then
    some (natOfDigits l)
  else none

/-- The month field of `strptime`'s `%m` directive: one or two decimal
digits whose value lies in 1..12. -/
def parseMonthPart (l : List Char) : Option Nat :=
  if l ≠ [] ∧ l.length ≤ 2 ∧ l.all Char.isDigit ∧
      1 ≤ natOfDigits l ∧ natOfDigits l ≤ 12 then
    some (natOfDigits l)
  else none

/-- The year field of `strptime`'s `%Y` directive: exactly four decimal
digits; the `datetime` constructor additionally requires year ≥ 1. -/
def parseYearPart (l : List Char) : Option Nat :=
  if l.length = 4 ∧ l.all Char.isDigit ∧ 1 ≤ natOfDigits l then
    some (natOfDigits l)
  else none

/-- Gregorian leap-year rule, as used by Python's `datetime`. -/
def isLeapYear (y : Nat) : Bool :=
  y % 4 = 0 && (y % 100 ≠ 0 || y % 400 = 0)

/-- Number of days in a month, as validated by Python's `datetime`
constructor. -/
def daysInMonth (m y : Nat) : Nat :=
  if m = 2 then (if isLeapYear y then 29 else 28)
  else if m = 4 ∨ m = 6 ∨ m = 9 ∨ m = 11 then 30
  else 31

/-- Models `datetime.strptime(el, "%d.%m.%Y")`: the string must consist of
a day field, a literal dot, a month field, a literal dot and a four-digit
year, the whole string consumed; the resulting (day, month, year) triple
must be a valid calendar date or a `ValueError` is raised (modelled as
`none`). -/
def strptimeDMY (s : String) : Option (Nat × Nat × Nat) :=
  match splitCh (Char.ofNat 46) s.data with
  | [d, m, y] =>
    match parseDayPart d, parseMonthPart m, parseYearPart y with
    | some dv, some mv, some yv =>
      if dv ≤ daysInMonth mv yv then some (dv, mv, yv) else none
    | _, _, _ => none
  | _ => none

/-- Two-digit zero-padded decimal rendering, as produced by `strftime`'s
`%d`, `%m` and `%y` directives for values below 100. -/
def pad2 (n : Nat) : String :=
  if n < 10 then "0" ++ toString n else toString n

/-- Models `dt.strftime("%d%m%y")` applied to the parsed date. -/
def strftimeDDMMYY (d m y : Nat) : String :=
  pad2 d ++ pad2 m ++ pad2 (y % 100)

/-- The per-token body of `_convert_dates`: try to parse the token as
`%d.%m.%Y` and reformat it as `%d%m%y`; on `ValueError` (parse or
validation failure) return the token unchanged. -/
def convertDateToken (s : String) : String :=
  match strptimeDMY s with
  | some (d, m, y) => strftimeDDMMYY d m y
  | none => s

/-- A Python value as seen by `_convert_dates`: either a string or some
other (opaque) value, which the function passes through untouched. -/
inductive PyVal where
  | str (s : String)
  | other (n : Nat)
deriving DecidableEq

/-- Models `_convert_dates(elements)`: walk the list in order, appending
non-strings unchanged and strings after the date reformat attempt. -/
def convert_dates : List PyVal → List PyVal
  | [] => []
  | PyVal.str s :: rest => PyVal.str (convertDateToken s) :: convert_dates rest
  | v :: rest => v :: convert_dates rest

/-- Whether a `PyVal` is a string. -/
def PyVal.isStr : PyVal → Bool
  | PyVal.str _ => true
  | PyVal.other _ => false

/-- The `_COMMON_FRONT` denylist of boilerplate phrases. -/
def COMMON_FRONT : List String :=
  ["/", "Pakistan", "pakistan", "Name", "Father Name", "Gender",
   "Country of Stay", "Identity Number", "Date of Issue", "Date of Expiry",
   "Signature", "PAKISTAN", "ISLAMIC REpUBLIC OF PAKISTAN"]

/-- The `_COMMON_LOWER` denylist of boilerplate phrases. -/
def COMMON_LOWER : List String :=
  ["Date of Expiry", "United Arab Emirates", "Date", "of Expiry",
   "Date of Birth", "/", "Pakistan"]

/-- Models `validate_cnic(front_cnic, back_cnic)`: `False` when either
side is `None`, otherwise string equality. -/
def validate_cnic (front_cnic back_cnic : Option String) : Bool :=
  match front_cnic, back_cnic with
  | some f, some b => f == b
  | _, _ => false

/-- Models the Python slice `s[lo:hi]` on a string (clamping, never
raising). -/
def pySliceStr (s : String) (lo hi : Nat) : String :=
  String.mk ((s.data.drop lo).take (hi - lo))

/-- Models `ocr_back_qr`: given the decoded QR payloads of the back image
(in decode order), take the first payload's characters 12..24
(`raw[12:25]`); no payload (or a decoding exception) yields `None`. -/
def ocr_back_qr (payloads : List String) : Option String :=
  match payloads with
  | [] => none
  | p :: _ => some (pySliceStr p 12 25)

/-- A face bounding box `(x, y, w, h)` as returned by
`cv2.CascadeClassifier.detectMultiScale`: pixel coordinates,
non-negative integers. -/
structure Box where
  x : Nat
  y : Nat
  w : Nat
  h : Nat
deriving DecidableEq

/-- A crop window `image[top:bottom, left:right]` (numpy slice bounds;
integers, clamped by the slice semantics, not here). -/
structure Rect where
  left : Int
  top : Int
  right : Int
  bottom : Int
deriving DecidableEq

/-- The upper-front crop window of `ocr_front_upper` for one anchor:
`left = max(0, x-410)`, `top = max(0, y-72)`, `right = max(0, x-15)`,
`bottom = y+h+40`. -/
def upperRect (b : Box) : Rect :=
  { left := max 0 ((b.x : Int) - 410)
    top := max 0 ((b.y : Int) - 72)
    right := max 0 ((b.x : Int) - 15)
    bottom := (b.y : Int) + b.h + 40 }

/-- The lower-front crop window of `ocr_front_lower` for one anchor:
`left = max(0, x-410)`, `top = y+110`, `right = max(0, x-15)`,
`bottom = y+h+135`. -/
def lowerRect (b : Box) : Rect :=
  { left := max 0 ((b.x : Int) - 410)
    top := (b.y : Int) + 110
    right := max 0 ((b.x : Int) - 15)
    bottom := (b.y : Int) + b.h + 135 }

/-- The `for (x, y, w, h) in faces` loop of `ocr_front_upper`: every
iteration overwrites `upper_roi`, so the crop window of the last anchor
is the one that survives (`none` when the list is empty). -/
def upperRoiLoop (faces : List Box) : Option Rect :=
  faces.foldl (fun _ f => some (upperRect f)) none

/-- `faces[0]` of `ocr_front_lower`: the lower window always comes from
the first anchor. -/
def lowerRoiFirst (faces : List Box) : Option Rect :=
  match faces with
  | [] => none
  | b :: _ => some (lowerRect b)

/-- Number of indices selected by the numpy slice `lo:hi` over an axis of
length `n`, for non-negative bounds (all crop bounds in this code are
non-negative after the `max(0, ...)` clamps). -/
def sliceLen (n lo hi : Int) : Int :=
  max 0 (min hi n - min lo n)

/-- Models `roi.size == 0` for the crop `img[top:bottom, left:right]` of
an `imgH × imgW` image. -/
def roiEmpty (imgH imgW : Int) (r : Rect) : Bool :=
  decide (sliceLen imgH r.top r.bottom ≤ 0) ||
  decide (sliceLen imgW r.left r.right ≤ 0)

/-- The token filtering shared by both front regions: drop tokens whose
exact text is on the denylist, then strip internal hyphens from the
survivors. -/
def filterTokens (denylist : List String) (tokens : List String) : List String :=
  (tokens.filter (fun t => !(denylist.contains t))).map
    (removeChar (Char.ofNat 45))

/-- Outcome of `ocr_front_upper`, instrumented with whether the crop
window was ever computed (`roiDerived`) and whether the OCR reader was
invoked on it (`ocrInvoked`), so that the early-exit structure of the
source is observable. -/
structure UpperOut where
  data : List (String × String)
  texts : List String
  roiDerived : Bool
  ocrInvoked : Bool
deriving DecidableEq

/-- Models `ocr_front_upper(front_image, faces)`. The opaque capabilities
appear as parameters: `boxes` is the YOLO result on the front image
(`None` or a list), `imgH × imgW` the front image dimensions, and
`tokens` the texts the OCR reader would return on the upper crop, in
reading order. -/
def ocr_front_upper (boxes : Option (List Box)) (faces : List Box)
    (imgH imgW : Int) (tokens : List String) : UpperOut :=
  match boxes with
  | none => ⟨[], [], false, false⟩
  | some bs =>
    if bs.length = 0 then ⟨[], [], false, false⟩
    else if faces.length = 0 then ⟨[], [], false, false⟩
    else
      match upperRoiLoop faces with
      | none => ⟨[], [], false, false⟩
      | some r =>
        if roiEmpty imgH imgW r then ⟨[], [], true, false⟩
        else
          let texts := filterTokens COMMON_FRONT tokens
          let data :=
            if 2 ≤ texts.length then
              [("Name", texts.getD 0 ""), ("Guardian Name", texts.getD 1 "")]
            else if texts.length = 1 then
              [("Name", texts.getD 0 "")]
            else []
          ⟨data, texts, true, true⟩

/-- The date-normalized surviving token list of `ocr_front_lower`:
denylist filter, hyphen strip, then `_convert_dates` (the reader's texts
are all strings, so `_convert_dates` acts tokenwise as
`convertDateToken`). -/
def lowerTexts (tokens : List String) : List String :=
  (filterTokens COMMON_LOWER tokens).map convertDateToken

/-- The positional field assignment of `ocr_front_lower`: at least four
surviving tokens populate the four fixed keys in order, otherwise the
field set is empty. -/
def lowerFields (texts : List String) : List (String × String) :=
  if 4 ≤ texts.length then
    [("Id Card Number", texts.getD 0 ""),
     ("Date Of Birth", texts.getD 1 ""),
     ("Date Of Issue", texts.getD 2 ""),
     ("Date Of Expiry", texts.getD 3 "")]
  else []

/-- The CNIC scan of `ocr_front_lower`: walk the raw (unfiltered) reader
tokens in order and take the first whose text contains a hyphen and has
length exactly 15, with hyphens then removed. -/
def scanCnic (tokens : List String) : Option String :=
  (tokens.find? (fun raw =>
      raw.data.contains (Char.ofNat 45) && raw.length == 15)).map
    (removeChar (Char.ofNat 45))

/-- Models `ocr_front_lower(front_gray, faces)`, returning
`(cnic_number, structured_dict, raw_texts)`; `tokens` is the OCR reader's
output on the lower crop of the first anchor. -/
def ocr_front_lower (faces : List Box) (imgH imgW : Int)
    (tokens : List String) :
    Option String × List (String × String) × List String :=
  match faces with
  | [] => (none, [], [])
  | b :: _ =>
    if roiEmpty imgH imgW (lowerRect b) then (none, [], [])
    else
      let texts := lowerTexts tokens
      (scanCnic tokens, lowerFields texts, texts)

/-- First-occurrence lookup in an insertion-ordered dictionary
(association list): the value a Python `dict` access returns, since the
dictionaries built here never hold duplicate keys. -/
def dlookup (k : String) : List (String × String) → Option String
  | [] => none
  | p :: rest => if p.1 = k then some p.2 else dlookup k rest

/-- CPython `dict` assignment `d[k] = v` on an insertion-ordered
dictionary: update the value in place if the key is present, otherwise
append the pair. -/
def dictSet (d : List (String × String)) (k v : String) :
    List (String × String) :=
  match d with
  | [] => [(k, v)]
  | p :: rest => if p.1 = k then (k, v) :: rest else p :: dictSet rest k v

/-- The dict merge `{**a, **b}`: start from an empty dictionary and
assign all of `a`'s items in order, then all of `b`'s items in order. -/
def pyDictMerge (a b : List (String × String)) : List (String × String) :=
  b.foldl (fun d p => dictSet d p.1 p.2)
    (a.foldl (fun d p => dictSet d p.1 p.2) [])

/-- The key list of an insertion-ordered dictionary. -/
def dkeys (d : List (String × String)) : List String :=
  d.map Prod.fst

/-- Left-preferring choice of two optional values. -/
def dfirst (a b : Option String) : Option String :=
  match a with
  | some v => some v
  | none => b

/-- The spec's right-biased union, as a lookup function: on any key the
lower-region value wins when present, otherwise the upper-region value is
used. -/
def rightBiased (upper lower : List (String × String)) (k : String) :
    Option String :=
  match dlookup k lower with
  | some v => some v
  | none => dlookup k upper

/-- Models `merge_card_data(upper, lower, raw_upper, raw_lower,
csv_path)`: merge the two dictionaries with lower-side precedence, strip
every `.` from each (string) value, and attempt the CSV dump exactly when
`csv_path` is truthy. The returned flag records whether the persistence
side effect was attempted (its failure is swallowed in the source). -/
def merge_card_data (upper lower : List (String × String))
    (csv_path : Option String) : List (String × String) × Bool :=
  let merged := pyDictMerge upper lower
  let merged := merged.map (fun p => (p.1, removeChar (Char.ofNat 46) p.2))
  (merged, csv_path.isSome)

/-- The HTTP-level outcome of one `id_detector` request, keyed by which
branch of `views.py` produced the response. -/
inductive Outcome where
  | missingFiles
  | invalidImage
  | noFaceDetected
  | cnicMismatch (front back : Option String)
  | accepted (cardInfo : List (String × String)) (front back : Option String)
  | internalError
deriving DecidableEq

/-- One request to `id_detector`, with every opaque capability's output
supplied as data: upload presence, decodability of each side, the face
boxes on the front, the front image dimensions, the YOLO boxes for the
upper pass, the OCR texts for the two front crops, and the decoded QR
payloads of the back. -/
structure Request where
  hasFront : Bool
  hasBack : Bool
  frontDecoded : Bool
  backDecoded : Bool
  faces : List Box
  imgH : Int
  imgW : Int
  upperBoxes : Option (List Box)
  upperTokens : List String
  lowerTokens : List String
  backPayloads : List String
deriving DecidableEq

/-- The front-derived identifier a request yields
(`cnic_front` in `views.py`). -/
def cnicFrontOf (req : Request) : Option String :=
  (ocr_front_lower req.faces req.imgH req.imgW req.lowerTokens).1

/-- The back-derived identifier a request yields
(`cnic_back` in `views.py`). -/
def cnicBackOf (req : Request) : Option String :=
  ocr_back_qr req.backPayloads

/-- Models the `id_detector` view: upload validation, decode validation,
face detection gate, the two front OCR passes, the back QR pass, the
reconciliation gate, and — only past that gate — the merge with its CSV
dump. The boolean records whether the persistence side effect was
attempted during the request. -/
def id_detector (req : Request) : Outcome × Bool :=
  if !(req.hasFront && req.hasBack) then (Outcome.missingFiles, false)
  else if !(req.frontDecoded && req.backDecoded) then
    (Outcome.invalidImage, false)
  else if req.faces.length = 0 then (Outcome.noFaceDetected, false)
  else
    let u := ocr_front_upper req.upperBoxes req.faces req.imgH req.imgW
      req.upperTokens
    let low := ocr_front_lower req.faces req.imgH req.imgW req.lowerTokens
    let cnic_front := low.1
    let cnic_back := ocr_back_qr req.backPayloads
    if !(validate_cnic cnic_front cnic_back) then
      (Outcome.cnicMismatch cnic_front cnic_back, false)
    else
      let m := merge_card_data u.data low.2.1 (some "IdCardData.csv")
      (Outcome.accepted m.1 cnic_front cnic_back, m.2)

/-! ### Supporting lemmas -/

theorem parseDayPart_bounds (l : List Char) (v : Nat)
    (h : parseDayPart l = some v) : 1 ≤ v ∧ v ≤ 31 := by
  unfold parseDayPart at h
  split at h
  · rename_i hc
    injection h with h
    subst h
    exact ⟨hc.2.2.2.1, hc.2.2.2.2⟩
  · cases h

theorem parseMonthPart_bounds (l : List Char) (v : Nat)
    (h : parseMonthPart l = some v) : 1 ≤ v ∧ v ≤ 12 := by
  unfold parseMonthPart at h
  split at h
  · rename_i hc
    injection h with h
    subst h
    exact ⟨hc.2.2.2.1, hc.2.2.2.2⟩
  · cases h

theorem parseYearPart_bounds (l : List Char) (v : Nat)
    (h : parseYearPart l = some v) : 1 ≤ v := by
  unfold parseYearPart at h
  split at h
  · rename_i hc
    injection h with h
    subst h
    exact hc.2.2
  · cases h

theorem strptimeDMY_bounds (s : String) (d m y : Nat)
    (h : strptimeDMY s = some (d, m, y)) :
    1 ≤ d ∧ d ≤ daysInMonth m y ∧ 1 ≤ m ∧ m ≤ 12 ∧ 1 ≤ y := by
  unfold strptimeDMY at h
  split at h
  · split at h
    · split at h
      · rename_i a1 dl ml yl e1 a2 a3 a4 dv mv yv hd hm hy hle
        simp only [Option.some.injEq, Prod.mk.injEq] at h
        obtain ⟨rfl, rfl, rfl⟩ := h
        exact ⟨(parseDayPart_bounds dl _ hd).1, hle,
          (parseMonthPart_bounds ml _ hm).1, (parseMonthPart_bounds ml _ hm).2,
          parseYearPart_bounds yl _ hy⟩
      · cases h
    · cases h
  · cases h

theorem foldl_upperRect_last (l : List Box) (acc : Option Rect)
    (h : l ≠ []) :
    l.foldl (fun _ f => some (upperRect f)) acc =
      some (upperRect (l.getLast h)) := by
  induction l generalizing acc with
  | nil => exact absurd rfl h
  | cons a t ih =>
    cases t with
    | nil => rfl
    | cons b t2 =>
      have ht : b :: t2 ≠ [] := by simp
      rw [List.foldl_cons, ih (some (upperRect a)) ht]
      exact congrArg (fun r => some (upperRect r)) (List.getLast_cons ht).symm

/-! ### C1: identifier reconciliation -/

/-- C1: `validate_cnic` returns `true` exactly when both identifiers are
present and the two strings are equal; any absence or mismatch yields
`false`. -/
theorem validate_cnic_iff (front back : Option String) :
    validate_cnic front back = true ↔
      ∃ s, front = some s ∧ back = some s := by
  cases front <;> cases back <;> simp [validate_cnic]
  exact eq_comm

/-! ### C4: date normalization is a validating parse -/

/-- C4 (counterexample): `"31.02.2021"` has the `DD.MM.YYYY` shape but is
an impossible calendar date; `_convert_dates` leaves it unchanged instead
of rewriting it to `"310221"`, so the claim that malformed dates with the
right shape are silently accepted and rewritten is false. -/
theorem convertDateToken_not_best_effort :
    convertDateToken "31.02.2021" = "31.02.2021" ∧
      convertDateToken "31.02.2021" ≠ "310221" := by
  constructor
  · rfl
  · decide

/-- C4 (amended): a token that `strptime`-parses as a valid calendar date
in day.month.4-digit-year form (validating day against the month length)
is rewritten to the zero-padded `DDMMYY` string; every other token —
including well-shaped but impossible dates, which the validating parse
rejects — passes through unchanged. -/
theorem convertDateToken_spec :
    (∀ s, strptimeDMY s = none → convertDateToken s = s) ∧
    (∀ s d m y, strptimeDMY s = some (d, m, y) →
      convertDateToken s = strftimeDDMMYY d m y ∧
      1 ≤ d ∧ d ≤ daysInMonth m y ∧ 1 ≤ m ∧ m ≤ 12 ∧ 1 ≤ y) ∧
    convertDateToken "01.02.2030" = "010230" ∧
    convertDateToken "hello" = "hello" := by
  refine ⟨fun s h => ?_, fun s d m y h => ?_, rfl, rfl⟩
  · simp [convertDateToken, h]
  · exact ⟨by simp [convertDateToken, h], strptimeDMY_bounds s d m y h⟩

/-- C4 (witness): the amended statement applied at a concrete valid date
and at the counterexample token. -/
theorem convertDateToken_spec_witness :
    convertDateToken "05.06.2007" = strftimeDDMMYY 5 6 2007 ∧
      strftimeDDMMYY 5 6 2007 = "050607" ∧
      convertDateToken "31.02.2021" = "31.02.2021" :=
  ⟨(convertDateToken_spec.2.1 "05.06.2007" 5 6 2007 (by decide)).1,
    by decide, convertDateToken_spec.1 "31.02.2021" (by decide)⟩

/-! ### C8: upper and lower crop windows are disjoint -/

/-- C8: for an anchor of height at most 70 pixels the lower window's top
edge (`y + 110`) is at or below the upper window's bottom edge
(`y + h + 40`), so the two crop windows do not overlap. -/
theorem roi_windows_disjoint (b : Box) (h : b.h ≤ 70) :
    (upperRect b).bottom ≤ (lowerRect b).top := by
  simp only [upperRect, lowerRect]
  omega

/-- C8 (witness): the disjointness at a concrete anchor box. -/
theorem roi_windows_disjoint_witness :
    (Box.mk 500 10 40 40).h ≤ 70 ∧
      (upperRect (Box.mk 500 10 40 40)).bottom ≤
        (lowerRect (Box.mk 500 10 40 40)).top :=
  ⟨by decide, roi_windows_disjoint (Box.mk 500 10 40 40) (by decide)⟩

/-! ### C9: upper extraction silently requires detector output -/

/-- C9: when the object detector returns `None` or zero boxes for the
front image, `ocr_front_upper` returns an empty field set and an empty
raw-text list without deriving a crop window or invoking the OCR reader,
whatever the anchors, image dimensions and reader output would have
been. -/
theorem upper_requires_detector (faces : List Box) (imgH imgW : Int)
    (tokens : List String) :
    ocr_front_upper none faces imgH imgW tokens =
        UpperOut.mk [] [] false false ∧
      ocr_front_upper (some []) faces imgH imgW tokens =
        UpperOut.mk [] [] false false := by
  exact ⟨rfl, rfl⟩

/-! ### C10: date normalization preserves count, order and non-strings -/

/-- C10: `_convert_dates` returns a list of exactly the input's length,
and every non-string element is passed through unchanged at the same
position. -/
theorem convert_dates_shape (l : List PyVal) :
    (convert_dates l).length = l.length ∧
    ∀ i v, l.get? i = some v → v.isStr = false →
      (convert_dates l).get? i = some v := by
  induction l with
  | nil => exact ⟨rfl, fun i v h _ => by cases h⟩
  | cons a t ih =>
    cases a with
    | str s =>
      refine ⟨by simpa [convert_dates] using ih.1, fun i v h hv => ?_⟩
      cases i with
      | zero =>
        injection h with h
        subst h
        cases hv
      | succ j => exact ih.2 j v h hv
    | other n =>
      refine ⟨by simpa [convert_dates] using ih.1, fun i v h hv => ?_⟩
      cases i with
      | zero =>
        injection h with h
        subst h
        rfl
      | succ j => exact ih.2 j v h hv

/-- C10 (witness): shape preservation applied at a concrete mixed
list. -/
theorem convert_dates_shape_witness :
    (convert_dates [PyVal.other 7, PyVal.str "01.02.2030"]).length = 2 ∧
      (convert_dates [PyVal.other 7, PyVal.str "01.02.2030"]).get? 0 =
        some (PyVal.other 7) :=
  ⟨(convert_dates_shape [PyVal.other 7, PyVal.str "01.02.2030"]).1,
    (convert_dates_shape [PyVal.other 7, PyVal.str "01.02.2030"]).2 0
      (PyVal.other 7) (by decide) (by decide)⟩

/-! ### C7: last anchor for the upper window, first for the lower -/

/-- C7: iterating the anchor loop leaves the crop window of the LAST
anchor for the upper region, while the lower extraction depends only on
the FIRST anchor; with a single anchor both windows therefore come from
that same anchor. -/
theorem roi_anchor_asymmetry (faces : List Box) (h : faces ≠ [])
    (imgH imgW : Int) (tokens : List String) :
    upperRoiLoop faces = some (upperRect (faces.getLast h)) ∧
    lowerRoiFirst faces = some (lowerRect (faces.head h)) ∧
    ocr_front_lower faces imgH imgW tokens =
      ocr_front_lower [faces.head h] imgH imgW tokens ∧
    ∀ b, faces = [b] → faces.getLast h = faces.head h := by
  refine ⟨foldl_upperRect_last faces none h, ?_, ?_, ?_⟩
  · cases faces with
    | nil => exact absurd rfl h
    | cons b rest => rfl
  · cases faces with
    | nil => exact absurd rfl h
    | cons b rest => rfl
  · intro b hb
    subst hb
    rfl

/-- C7 (witness): with two anchors, the upper window comes from the
second (last) anchor and the lower pipeline result matches the one
computed from the first anchor alone. -/
theorem roi_anchor_asymmetry_witness :
    upperRoiLoop [Box.mk 100 0 40 40, Box.mk 500 10 40 40] =
        some (upperRect (Box.mk 500 10 40 40)) ∧
      ocr_front_lower [Box.mk 100 0 40 40, Box.mk 500 10 40 40] 600 600
          ["12345-1234567-1"] =
        ocr_front_lower [Box.mk 100 0 40 40] 600 600
          ["12345-1234567-1"] := by
  have h := roi_anchor_asymmetry [Box.mk 100 0 40 40, Box.mk 500 10 40 40]
    (by decide) 600 600 ["12345-1234567-1"]
  exact ⟨h.1, h.2.2.1⟩

/-! ### C3: positional lower-region field assignment -/

/-- C3: with an anchor present and a non-empty lower crop, the
lower-region field set maps the four fixed keys to the first four
surviving tokens (after denylist filter, hyphen strip and date
normalization) in order when at least four survive, and is empty when
fewer than four survive. -/
theorem lower_fields_positional (faces : List Box) (b : Box)
    (rest : List Box) (imgH imgW : Int) (tokens : List String)
    (hf : faces = b :: rest)
    (hroi : roiEmpty imgH imgW (lowerRect b) = false) :
    (4 ≤ (lowerTexts tokens).length →
      (ocr_front_lower faces imgH imgW tokens).2.1 =
        [("Id Card Number", (lowerTexts tokens).getD 0 ""),
         ("Date Of Birth", (lowerTexts tokens).getD 1 ""),
         ("Date Of Issue", (lowerTexts tokens).getD 2 ""),
         ("Date Of Expiry", (lowerTexts tokens).getD 3 "")]) ∧
    ((lowerTexts tokens).length < 4 →
      (ocr_front_lower faces imgH imgW tokens).2.1 = []) := by
  subst hf
  constructor
  · intro h4
    simp [ocr_front_lower, hroi, lowerFields, h4]
  · intro h4
    simp [ocr_front_lower, hroi, lowerFields, Nat.not_le.mpr h4]

/-- C3 (witness): the four spec-example tokens populate all four keys in
order (with the CNIC hyphens stripped and the dates compacted), and a
single token yields an empty field set. -/
theorem lower_fields_positional_witness :
    (ocr_front_lower [Box.mk 500 10 40 40] 600 600
        ["12345-1234567-1", "01.02.1990", "01.01.2020", "01.01.2030"]).2.1 =
      [("Id Card Number", "1234512345671"),
       ("Date Of Birth", "010290"),
       ("Date Of Issue", "010120"),
       ("Date Of Expiry", "010130")] ∧
    (ocr_front_lower [Box.mk 500 10 40 40] 600 600 ["01.02.1990"]).2.1 =
      [] := by
  constructor
  · exact ((lower_fields_positional [Box.mk 500 10 40 40] (Box.mk 500 10 40 40)
      [] 600 600 ["12345-1234567-1", "01.02.1990", "01.01.2020", "01.01.2030"]
      rfl (by decide)).1 (by decide)).trans (by decide)
  · exact (lower_fields_positional [Box.mk 500 10 40 40] (Box.mk 500 10 40 40)
      [] 600 600 ["01.02.1990"] rfl (by decide)).2 (by decide)

/-! ### C5: identifier scan over the raw, unfiltered tokens -/

/-- C5: the front-derived identifier is the first RAW reader token (in
reading order, before any denylist filtering or hyphen stripping) that
contains a hyphen and has length exactly 15, returned with its hyphens
removed; no such token yields `None`. The two closing conjuncts are the
spec's shape examples. -/
theorem cnic_scan_raw_tokens (faces : List Box) (b : Box)
    (rest : List Box) (imgH imgW : Int) (tokens : List String)
    (hf : faces = b :: rest)
    (hroi : roiEmpty imgH imgW (lowerRect b) = false) :
    (ocr_front_lower faces imgH imgW tokens).1 =
      (tokens.find? (fun raw =>
          raw.data.contains (Char.ofNat 45) && raw.length == 15)).map
        (removeChar (Char.ofNat 45)) ∧
    scanCnic ["12345-1234567-1"] = some "1234512345671" ∧
    scanCnic ["1234-123-1"] = none := by
  subst hf
  refine ⟨?_, by decide, by decide⟩
  simp [ocr_front_lower, hroi, scanCnic]

/-- C5 (witness): a denylisted token ("Pakistan") is filtered out of the
field tokens but the raw scan still walks past it and finds the
CNIC-shaped token. -/
theorem cnic_scan_raw_tokens_witness :
    (ocr_front_lower [Box.mk 500 10 40 40] 600 600
        ["Pakistan", "12345-1234567-1"]).1 = some "1234512345671" := by
  exact ((cnic_scan_raw_tokens [Box.mk 500 10 40 40] (Box.mk 500 10 40 40)
    [] 600 600 ["Pakistan", "12345-1234567-1"] rfl (by decide)).1).trans
    (by decide)

/-! ### C2: the reconciliation gate blocks merge and persistence -/

/-- C2: for a request that passes the upload, decode and face gates, if
reconciliation of the front-derived and back-derived identifiers fails
then the pipeline returns the identifier-mismatch outcome carrying both
identifiers, attempts no persistence side effect, never produces an
accepted (merged) outcome, and the outcome is distinct from the hard
internal-error outcome. -/
theorem mismatch_blocks_merge (req : Request)
    (h1 : req.hasFront = true) (h2 : req.hasBack = true)
    (h3 : req.frontDecoded = true) (h4 : req.backDecoded = true)
    (h5 : req.faces.length ≠ 0)
    (h6 : validate_cnic (cnicFrontOf req) (cnicBackOf req) = false) :
    id_detector req =
        (Outcome.cnicMismatch (cnicFrontOf req) (cnicBackOf req), false) ∧
      (id_detector req).1 ≠ Outcome.internalError ∧
      ∀ info f b, (id_detector req).1 ≠ Outcome.accepted info f b := by
  have hmain : id_detector req =
      (Outcome.cnicMismatch (cnicFrontOf req) (cnicBackOf req), false) := by
    unfold id_detector
    rw [h1, h2, h3, h4]
    simp only [Bool.and_self, Bool.not_true, Bool.false_eq_true, if_false]
    rw [if_neg h5]
    have h6' : validate_cnic
        (ocr_front_lower req.faces req.imgH req.imgW req.lowerTokens).1
        (ocr_back_qr req.backPayloads) = false := h6
    simp only [h6', Bool.not_false, if_true]
    rfl
  refine ⟨hmain, ?_, ?_⟩
  · rw [hmain]
    exact fun hc => Outcome.noConfusion hc
  · intro info f b
    rw [hmain]
    exact fun hc => Outcome.noConfusion hc

/-- C2 (witness): a concrete request (one face, no CNIC-shaped front
token, no QR payload) fails reconciliation and yields the mismatch
outcome with no persistence attempt. -/
theorem mismatch_blocks_merge_witness :
    id_detector
        (Request.mk true true true true [Box.mk 500 10 40 40] 600 600
          (some [Box.mk 0 0 10 10]) ["Ali", "Ahmed"] ["no", "cnic", "here"]
          []) =
      (Outcome.cnicMismatch none none, false) := by
  exact (mismatch_blocks_merge
    (Request.mk true true true true [Box.mk 500 10 40 40] 600 600
      (some [Box.mk 0 0 10 10]) ["Ali", "Ahmed"] ["no", "cnic", "here"] [])
    rfl rfl rfl rfl (by decide) (by decide)).1.trans (by decide)

/-! ### C6: merge is the sanitized right-biased union -/

theorem dlookup_dictSet (d : List (String × String)) (k v k' : String) :
    dlookup k' (dictSet d k v) = if k' = k then some v else dlookup k' d := by
  induction d with
  | nil =>
    by_cases h : k' = k
    · subst h
      simp [dictSet, dlookup]
    · rw [if_neg h]
      simp only [dictSet, dlookup]
      rw [if_neg (fun hh : k = k' => h hh.symm)]
  | cons p rest ih =>
    by_cases h1 : p.1 = k
    · simp only [dictSet, if_pos h1]
      by_cases h : k' = k
      · subst h
        simp [dlookup]
      · rw [if_neg h]
        simp only [dlookup]
        rw [if_neg (fun hh : k = k' => h hh.symm),
          if_neg (fun hh : p.1 = k' => h (hh.symm.trans h1))]
    · simp only [dictSet, if_neg h1]
      by_cases h : k' = k
      · subst h
        simp only [dlookup, if_neg h1, if_pos rfl] at ih ⊢
        exact ih
      · rw [if_neg h]
        simp only [dlookup]
        by_cases h3 : p.1 = k'
        · rw [if_pos h3, if_pos h3]
        · rw [if_neg h3, if_neg h3, ih, if_neg h]

theorem dlookup_append (xs ys : List (String × String)) (k : String) :
    dlookup k (xs ++ ys) = dfirst (dlookup k xs) (dlookup k ys) := by
  induction xs with
  | nil => rfl
  | cons p t ih =>
    by_cases h : p.1 = k <;> simp [dlookup, dfirst, h, ih]

theorem dlookup_foldl (b : List (String × String))
    (d : List (String × String)) (k : String) :
    dlookup k (b.foldl (fun acc p => dictSet acc p.1 p.2) d) =
      dfirst (dlookup k b.reverse) (dlookup k d) := by
  induction b generalizing d with
  | nil => rfl
  | cons p t ih =>
    rw [List.foldl_cons, ih (dictSet d p.1 p.2), List.reverse_cons,
      dlookup_append, dlookup_dictSet]
    cases ht : dlookup k t.reverse with
    | some v => rfl
    | none =>
      by_cases h : k = p.1 <;> simp [dfirst, dlookup, h, Eq.comm]

theorem dlookup_eq_none_iff (d : List (String × String)) (k : String) :
    dlookup k d = none ↔ k ∉ dkeys d := by
  induction d with
  | nil => simp [dlookup, dkeys]
  | cons p t ih =>
    simp only [dkeys, List.map_cons, List.mem_cons, not_or] at ih ⊢
    by_cases h : p.1 = k
    · simp only [dlookup, if_pos h]
      constructor
      · intro hc
        cases hc
      · intro hc
        exact absurd h.symm hc.1
    · simp only [dlookup, if_neg h]
      rw [ih]
      constructor
      · intro hm
        exact ⟨fun hh => h hh.symm, hm⟩
      · intro hc
        exact hc.2

theorem dlookup_reverse (d : List (String × String)) (k : String)
    (h : (dkeys d).Nodup) : dlookup k d.reverse = dlookup k d := by
  induction d with
  | nil => rfl
  | cons p t ih =>
    obtain ⟨hk, ht⟩ :=
      List.nodup_cons.mp (show (p.1 :: dkeys t).Nodup from h)
    rw [List.reverse_cons, dlookup_append, ih ht]
    by_cases hpk : p.1 = k
    · subst hpk
      rw [(dlookup_eq_none_iff t p.1).mpr hk]
      simp [dfirst, dlookup]
    · cases hl : dlookup k t with
      | some v => simp [dfirst, dlookup, hpk, hl]
      | none => simp [dfirst, dlookup, hpk, hl]

theorem dlookup_mapVal (d : List (String × String)) (k : String)
    (f : String → String) :
    dlookup k (d.map (fun p => (p.1, f p.2))) = (dlookup k d).map f := by
  induction d with
  | nil => rfl
  | cons p t ih =>
    by_cases h : p.1 = k <;> simp [dlookup, h, ih]

theorem dlookup_pyDictMerge (u l : List (String × String)) (k : String)
    (hu : (dkeys u).Nodup) (hl : (dkeys l).Nodup) :
    dlookup k (pyDictMerge u l) = rightBiased u l k := by
  unfold pyDictMerge rightBiased
  rw [dlookup_foldl, dlookup_foldl, dlookup_reverse l k hl,
    dlookup_reverse u k hu]
  cases dlookup k l with
  | some v => rfl
  | none =>
    cases dlookup k u with
    | some w => rfl
    | none => rfl

theorem dkeys_dictSet (d : List (String × String)) (k v : String) :
    dkeys (dictSet d k v) =
      if k ∈ dkeys d then dkeys d else dkeys d ++ [k] := by
  induction d with
  | nil => simp [dictSet, dkeys]
  | cons p t ih =>
    by_cases h : p.1 = k
    · subst h
      simp [dictSet, dkeys]
    · simp only [dictSet, if_neg h, dkeys, List.map_cons, List.mem_cons]
      simp only [dkeys] at ih
      rw [ih]
      by_cases hm : k ∈ List.map Prod.fst t
      · rw [if_pos hm, if_pos (Or.inr hm)]
      · rw [if_neg hm, if_neg ?_, List.cons_append]
        intro hc
        rcases hc with hc | hc
        · exact h hc.symm
        · exact hm hc

theorem foldl_dictSet_disjoint (u : List (String × String)) :
    ∀ d, (dkeys u).Nodup → (∀ k, k ∈ dkeys u → k ∉ dkeys d) →
      u.foldl (fun acc p => dictSet acc p.1 p.2) d = d ++ u := by
  induction u with
  | nil => intro d _ _; rw [List.foldl_nil, List.append_nil]
  | cons p t ih =>
    intro d hnd hdis
    obtain ⟨hp, ht⟩ := List.nodup_cons.mp
      (show (p.1 :: dkeys t).Nodup from hnd)
    have hset : dictSet d p.1 p.2 = d ++ [p] := by
      have hpd : p.1 ∉ dkeys d := hdis p.1 (List.mem_cons_self ..)
      clear hdis hnd hp ht ih
      induction d with
      | nil => rfl
      | cons q s ihd =>
        simp only [dkeys, List.map_cons, List.mem_cons, not_or] at hpd
        simp only [dictSet, if_neg (fun hc : q.1 = p.1 => hpd.1 hc.symm),
          List.cons_append]
        rw [ihd (by simpa [dkeys] using hpd.2)]
    rw [List.foldl_cons, hset, ih (d ++ [p]) ht ?_]
    · rw [List.append_assoc, List.singleton_append]
    · intro k hk
      have hkd : k ∉ dkeys d := hdis k (List.mem_cons_of_mem _ hk)
      have hkp : k ≠ p.1 := fun hc => hp (hc ▸ hk)
      simp only [dkeys, List.map_append, List.mem_append] at hkd ⊢
      rintro (hc | hc)
      · exact hkd (by simpa [dkeys] using hc)
      · simp only [List.map_cons, List.map_nil, List.mem_cons,
          List.not_mem_nil] at hc
        rcases hc with hc | hc
        · exact hkp hc
        · exact hc

theorem dkeys_foldl_dictSet (l : List (String × String)) :
    ∀ d, (dkeys l).Nodup →
      dkeys (l.foldl (fun acc p => dictSet acc p.1 p.2) d) =
        dkeys d ++ (dkeys l).filter (fun k => decide (k ∉ dkeys d)) := by
  induction l with
  | nil =>
    intro d _
    simp [dkeys]
  | cons p t ih =>
    intro d hnd
    obtain ⟨hp, ht⟩ := List.nodup_cons.mp
      (show (p.1 :: dkeys t).Nodup from hnd)
    rw [List.foldl_cons, ih (dictSet d p.1 p.2) ht, dkeys_dictSet]
    by_cases hm : p.1 ∈ dkeys d
    · rw [if_pos hm]
      have : (dkeys (p :: t)).filter (fun k => decide (k ∉ dkeys d)) =
          (dkeys t).filter (fun k => decide (k ∉ dkeys d)) := by
        show List.filter _ (p.1 :: dkeys t) = _
        rw [List.filter_cons_of_neg]
        simp [hm]
      rw [this]
    · rw [if_neg hm]
      have hcong : (dkeys t).filter
            (fun k => decide (k ∉ dkeys d ++ [p.1])) =
          (dkeys t).filter (fun k => decide (k ∉ dkeys d)) := by
        refine List.filter_congr ?_
        intro k hk
        have hkp : k ≠ p.1 := fun hc => hp (hc ▸ hk)
        simp [List.mem_append, hkp]
      have hhead : (dkeys (p :: t)).filter (fun k => decide (k ∉ dkeys d)) =
          p.1 :: (dkeys t).filter (fun k => decide (k ∉ dkeys d)) := by
        show List.filter _ (p.1 :: dkeys t) = _
        rw [List.filter_cons_of_pos]
        simp [hm]
      rw [hcong, hhead, List.append_assoc, List.singleton_append]

theorem dkeys_mapVal (d : List (String × String)) (f : String → String) :
    dkeys (d.map (fun p => (p.1, f p.2))) = dkeys d := by
  induction d with
  | nil => rfl
  | cons p t ih =>
    simp only [dkeys, List.map_cons] at ih ⊢
    rw [ih]

/-- C6: the merged record is exactly the right-biased union of the two
field sets with every `.` removed from each value: on any key a
lower-region value wins, an upper-region value survives otherwise, no
other key appears, and the keys come in Python dict-merge insertion
order (upper keys first, then the lower-only keys). -/
theorem merge_right_biased_sanitized (upper lower : List (String × String))
    (csv_path : Option String)
    (hu : (dkeys upper).Nodup) (hl : (dkeys lower).Nodup) :
    (∀ k, dlookup k (merge_card_data upper lower csv_path).1 =
      (rightBiased upper lower k).map (removeChar (Char.ofNat 46))) ∧
    dkeys (merge_card_data upper lower csv_path).1 =
      dkeys upper ++
        (dkeys lower).filter (fun k => decide (k ∉ dkeys upper)) := by
  constructor
  · intro k
    show dlookup k ((pyDictMerge upper lower).map
      (fun p => (p.1, removeChar (Char.ofNat 46) p.2))) = _
    rw [dlookup_mapVal, dlookup_pyDictMerge upper lower k hu hl]
  · show dkeys ((pyDictMerge upper lower).map
      (fun p => (p.1, removeChar (Char.ofNat 46) p.2))) = _
    rw [dkeys_mapVal]
    unfold pyDictMerge
    rw [dkeys_foldl_dictSet lower _ hl,
      foldl_dictSet_disjoint upper [] hu (fun k _ => by simp [dkeys]),
      List.nil_append]

/-- C6 (witness): the right-biased-union characterization applied at a
colliding key, an upper-only key and an absent key, with the `.`
stripping visible in the surviving value and the merged keys in
insertion order. -/
theorem merge_right_biased_sanitized_witness :
    dlookup "Date Of Birth"
        (merge_card_data [("Name", "Ali"), ("Date Of Birth", "x.y")]
          [("Date Of Birth", "01.02.90")] (some "IdCardData.csv")).1 =
      some "010290" ∧
    dlookup "Name"
        (merge_card_data [("Name", "Ali"), ("Date Of Birth", "x.y")]
          [("Date Of Birth", "01.02.90")] (some "IdCardData.csv")).1 =
      some "Ali" ∧
    dlookup "Gender"
        (merge_card_data [("Name", "Ali"), ("Date Of Birth", "x.y")]
          [("Date Of Birth", "01.02.90")] (some "IdCardData.csv")).1 =
      none ∧
    dkeys (merge_card_data [("Name", "Ali"), ("Date Of Birth", "x.y")]
        [("Date Of Birth", "01.02.90")] (some "IdCardData.csv")).1 =
      ["Name", "Date Of Birth"] := by
  have h := merge_right_biased_sanitized
    [("Name", "Ali"), ("Date Of Birth", "x.y")] [("Date Of Birth", "01.02.90")]
    (some "IdCardData.csv") (by decide) (by decide)
  exact ⟨(h.1 "Date Of Birth").trans (by decide),
    (h.1 "Name").trans (by decide), (h.1 "Gender").trans (by decide),
    h.2.trans (by decide)⟩

end CnicKyc
